import Mathlib

set_option linter.unusedVariables false

/-!
Shallow embedding of the Task-Management backend (Express + Mongoose).

The MongoDB collections are modelled as Lean lists of records; mongoose
operations (findOne, find with sort/skip/limit, countDocuments,
findOneAndUpdate, aggregate) are modelled as list functions with MongoDB
matching semantics.  Ids, statuses and priorities are strings, as stored in
the database; timestamps are integers (milliseconds since epoch).  The
populate calls in the controllers only replace reference ids by display
fields of the referenced user and are not modelled; references stay ids.
Fractional arithmetic of the analytics controller is modelled over Rat.
-/

namespace TaskMgmt

/-- JavaScript truthiness of an optional string request parameter:
present and nonempty. -/
def truthy : Option String → Bool
  | none => false
  | some s => !s.isEmpty

def isHexDigit (c : Char) : Bool :=
  c.isDigit || (c ≥ 'a' && c ≤ 'f') || (c ≥ 'A' && c ≤ 'F')

/-- Models mongoose.Types.ObjectId.isValid on string input: a 24-character
hexadecimal string, or any 12-character string. -/
def isValidObjectId (s : String) : Bool :=
  s.length == 12 || (s.length == 24 && s.toList.all isHexDigit)

def startsWithChars : List Char → List Char → Bool
  | _, [] => true
  | [], _ :: _ => false
  | a :: as, b :: bs => a == b && startsWithChars as bs

def containsChars : List Char → List Char → Bool
  | [], pat => pat.isEmpty
  | a :: rest, pat => startsWithChars (a :: rest) pat || containsChars rest pat

/-- Case-insensitive substring test: the model of a MongoDB regex match
built with new RegExp(pat) under option i (the controllers only ever feed
the raw search term as the pattern). -/
def regexMatchCI (pat s : String) : Bool :=
  containsChars s.toLower.toList pat.toLower.toList

/-- A user document (the fields the modelled handlers consult). -/
structure User where
  id : String
  username : String
  role : String
  isActive : Bool
deriving Repr, DecidableEq

/-- A task document, as declared in models/Task.js. -/
structure Task where
  id : String
  title : String
  description : Option String
  status : String
  priority : String
  dueDate : Option Int
  tags : List String
  assignedTo : Option String
  createdBy : String
  isDeleted : Bool
  deletedAt : Option Int
  createdAt : Int
  updatedAt : Int
deriving Repr, DecidableEq

/-- A comment document, as declared in models/Comment.js. -/
structure Comment where
  id : String
  content : String
  task : String
  author : String
  isDeleted : Bool
  deletedAt : Option Int
  createdAt : Int
  updatedAt : Int
deriving Repr, DecidableEq

/-- A file metadata document, as declared in models/File.js. -/
structure FileRec where
  id : String
  filename : String
  originalName : String
  mimetype : String
  size : Nat
  path : String
  task : String
  uploadedBy : String
  isDeleted : Bool
  deletedAt : Option Int
  createdAt : Int
deriving Repr, DecidableEq

/-- Models Model.findOne(filter): the first stored document matching the
filter. -/
def findOne (store : List α) (flt : α → Bool) : Option α :=
  store.find? flt

/-- Models Model.countDocuments(filter). -/
def countDocs (store : List α) (flt : α → Bool) : Nat :=
  (store.filter flt).length

/-- Models Model.findOneAndUpdate(filter, update, new true): the first
matching document is replaced by its update; the updated document and the
new collection are returned. -/
def findOneAndUpdate (store : List α) (flt : α → Bool) (upd : α → α) :
    Option α × List α :=
  match store with
  | [] => (none, [])
  | d :: rest =>
    if flt d then (some (upd d), upd d :: rest)
    else
      let r := findOneAndUpdate rest flt upd
      (r.fst, d :: r.snd)

/-! The task list query (controllers/taskController.js, getTasks). -/

/-- The query parameters of GET /tasks, as they sit in req.query after the
express layer: each is absent or a value (page and limit are kept as
integers; a non-integer value is rejected by validation before the
controller runs). -/
structure TaskListParams where
  status : Option String
  priority : Option String
  assignedTo : Option String
  search : Option String
  page : Option Int
  limit : Option Int
  sortBy : Option String
  sortOrder : Option String
deriving Repr, DecidableEq

/-- The filter document built by getTasks: isDeleted false always; each
equality filter only when its parameter is truthy; the search disjunction
only when search is truthy. -/
structure TaskQueryDoc where
  isDeleted : Bool
  status : Option String
  priority : Option String
  assignedTo : Option String
  search : Option String
deriving Repr, DecidableEq

/-- Builds the filter document exactly as getTasks does. -/
def buildTaskQuery (p : TaskListParams) : TaskQueryDoc :=
  { isDeleted := false
    status := if truthy p.status then p.status else none
    priority := if truthy p.priority then p.priority else none
    assignedTo := if truthy p.assignedTo then p.assignedTo else none
    search := if truthy p.search then p.search else none }

/-- MongoDB matching semantics of the filter document: field equality
conditions are conjoined; the search field stands for the $or of a
case-insensitive regex on title, on description, and on any tag. A missing
document field matches no equality or regex condition. -/
def matchesTaskQuery (q : TaskQueryDoc) (t : Task) : Bool :=
  t.isDeleted == q.isDeleted &&
  (match q.status with | none => true | some s => t.status == s) &&
  (match q.priority with | none => true | some s => t.priority == s) &&
  (match q.assignedTo with | none => true | some a => t.assignedTo == some a) &&
  (match q.search with
   | none => true
   | some s =>
     regexMatchCI s t.title ||
     (match t.description with | none => false | some d => regexMatchCI s d) ||
     t.tags.any (fun tg => regexMatchCI s tg))

def optIntLe : Option Int → Option Int → Bool
  | none, _ => true
  | some _, none => false
  | some a, some b => decide (a ≤ b)

/-- Ordering of two tasks under a single sort key, ascending.  An unknown
key (in particular the string rendering of an absent sortBy) compares
everything equal, so the stable sort leaves the stored order. -/
def fieldLe (key : String) (a b : Task) : Bool :=
  if key == "createdAt" then decide (a.createdAt ≤ b.createdAt)
  else if key == "dueDate" then optIntLe a.dueDate b.dueDate
  else if key == "priority" then !decide (b.priority < a.priority)
  else if key == "status" then !decide (b.status < a.status)
  else true

/-- The comparator produced by sort[sortBy] = sortOrder equal to desc ? -1 : 1. -/
def sortComparator (sortBy sortOrder : Option String) (a b : Task) : Bool :=
  let key := sortBy.getD "undefined"
  if sortOrder == some "desc" then fieldLe key b a else fieldLe key a b

/-- NaN-propagating multiplication of possibly-undefined JS numbers. -/
def jsMul : Option Int → Option Int → Option Int
  | some a, some b => some (a * b)
  | _, _ => none

/-- NaN-propagating subtraction of possibly-undefined JS numbers. -/
def jsSub : Option Int → Option Int → Option Int
  | some a, some b => some (a - b)
  | _, _ => none

/-- The query execution plan built by getTasks: filter document, sort and
the values handed to skip and limit (none models NaN from arithmetic on an
undefined parameter). -/
structure QueryPlan where
  doc : TaskQueryDoc
  sortBy : Option String
  sortOrder : Option String
  skipN : Option Int
  limitN : Option Int
deriving Repr, DecidableEq

/-- The plan getTasks builds: skip = (page - 1) * limit, limit = limit * 1. -/
def getTasksPlan (p : TaskListParams) : QueryPlan :=
  { doc := buildTaskQuery p
    sortBy := p.sortBy
    sortOrder := p.sortOrder
    skipN := jsMul (jsSub p.page (some 1)) p.limit
    limitN := jsMul p.limit (some 1) }

/-- Executes a find with sort, skip and limit: filter, stable sort, then
drop skip and take limit.  mongoose applies skip before limit regardless of
the order of the chained calls.  When skip or limit is NaN the slice is not
modelled (no theorem relies on that branch); the matching rows are returned
sorted. -/
def taskFindExec (store : List Task) (plan : QueryPlan) : List Task :=
  let sorted := (store.filter (matchesTaskQuery plan.doc)).mergeSort
      (sortComparator plan.sortBy plan.sortOrder)
  match plan.skipN, plan.limitN with
  | some sk, some lm => (sorted.drop sk.toNat).take lm.toNat
  | _, _ => sorted

/-- Math.ceil(total / limit) on a possibly-undefined limit; a limit that is
not a positive number is modelled as NaN (validation never lets one
through). -/
def jsCeilPages (total : Nat) (limit : Option Int) : Option Int :=
  match limit with
  | none => none
  | some l => if l ≤ 0 then none else some (Int.ofNat ((total + l.toNat - 1) / l.toNat))

/-- The body of the 200 response of getTasks. -/
structure TasksResponse where
  tasks : List Task
  page : Option Int
  limit : Option Int
  total : Nat
  pages : Option Int
deriving Repr, DecidableEq

/-- getTasks: build the query, run it with sort/skip/limit, count all
matching rows, and return tasks plus pagination metadata. -/
def getTasks (store : List Task) (p : TaskListParams) : TasksResponse :=
  let plan := getTasksPlan p
  { tasks := taskFindExec store plan
    page := p.page
    limit := p.limit
    total := countDocs store (matchesTaskQuery plan.doc)
    pages := jsCeilPages (countDocs store (matchesTaskQuery plan.doc)) p.limit }

/-! The query validation middleware (middleware/validation.js). -/

def statusEnum : List String := ["todo", "in-progress", "review", "done"]
def priorityEnum : List String := ["low", "medium", "high", "urgent"]
def sortByEnum : List String := ["createdAt", "dueDate", "priority", "status"]

/-- Whether Joi reports an error for req.query under taskQuerySchema. -/
def joiTaskQueryError (q : TaskListParams) : Bool :=
  (match q.status with | some s => !statusEnum.contains s | none => false) ||
  (match q.priority with | some s => !priorityEnum.contains s | none => false) ||
  (match q.page with | some p => decide (p < 1) | none => false) ||
  (match q.limit with | some l => decide (l < 1) || decide (100 < l) | none => false) ||
  (match q.sortBy with | some s => !sortByEnum.contains s | none => false) ||
  (match q.sortOrder with | some s => !(s == "asc" || s == "desc") | none => false)

/-- The value Joi validation computes for req.query: the same parameters
with the schema defaults filled in for absent ones. -/
def joiTaskQueryValue (q : TaskListParams) : TaskListParams :=
  { q with
    page := some (q.page.getD 1)
    limit := some (q.limit.getD 10)
    sortBy := some (q.sortBy.getD "createdAt")
    sortOrder := some (q.sortOrder.getD "desc") }

/-- Models validateQuery(taskQuerySchema): respond 400 when Joi reports an
error, otherwise call next().  Only the error component of the Joi result
is read; req.query is passed on unchanged. -/
def validateTaskQuery (q : TaskListParams) : Except String TaskListParams :=
  if joiTaskQueryError q then Except.error "400" else Except.ok q

/-- The GET /tasks route: validateQuery(taskQuerySchema) then getTasks. -/
def getTasksRoute (store : List Task) (q : TaskListParams) :
    Except String TasksResponse :=
  (validateTaskQuery q).map (getTasks store)

/-! Task creation and mutation (controllers/taskController.js). -/

/-- A request body for task creation, after validate(taskSchema).  The
createdBy component stands for an owner field a client may have smuggled
into the body; the controller overrides it by spreading. -/
structure TaskBody where
  title : String
  description : Option String
  status : Option String
  priority : Option String
  dueDate : Option Int
  tags : Option (List String)
  assignedTo : Option String
  createdBy : Option String
deriving Repr, DecidableEq

/-- The check shared by createTask and bulkCreateTasks: a truthy assignedTo
in the spread data that is not a valid ObjectId. -/
def assignedToInvalid (data : TaskBody) : Bool :=
  truthy data.assignedTo && !isValidObjectId (data.assignedTo.getD "")

/-- Models new Task(data) followed by save: schema defaults for status,
priority and tags, isDeleted false, and mongoose timestamps. -/
def saveTask (data : TaskBody) (id : String) (now : Int) : Task :=
  { id := id
    title := data.title
    description := data.description
    status := data.status.getD "todo"
    priority := data.priority.getD "medium"
    dueDate := data.dueDate
    tags := data.tags.getD []
    assignedTo := data.assignedTo
    createdBy := data.createdBy.getD ""
    isDeleted := false
    deletedAt := none
    createdAt := now
    updatedAt := now }

/-- createTask: spread the body with createdBy set to the authenticated
identity, validate assignedTo, save, and return 201 with the task. -/
def createTask (store : List Task) (user : User) (body : TaskBody)
    (newId : String) (now : Int) : Except String Task × List Task :=
  let data := { body with createdBy := some user.id }
  if assignedToInvalid data then
    (Except.error "400 Invalid assignedTo ID", store)
  else
    let t := saveTask data newId now
    (Except.ok t, store ++ [t])

/-- The sequential loop of bulkCreateTasks: each input is spread with
createdBy set to the authenticated identity, checked and saved in turn; an
invalid assignedTo returns 400 at once, with the earlier saves kept. -/
def bulkLoop (user : User) (genId : Nat → String) (now : Int) :
    List TaskBody → Nat → List Task → List Task →
    Except String (List Task) × List Task
  | [], _, created, store => (Except.ok created, store)
  | body :: rest, n, created, store =>
    let data := { body with createdBy := some user.id }
    if assignedToInvalid data then
      (Except.error "400 Invalid assignedTo ID in bulk tasks", store)
    else
      let t := saveTask data (genId n) now
      bulkLoop user genId now rest (n + 1) (created ++ [t]) (store ++ [t])

/-- bulkCreateTasks: reject an empty tasks array, otherwise run the
sequential creation loop. -/
def bulkCreateTasks (store : List Task) (user : User) (bodies : List TaskBody)
    (genId : Nat → String) (now : Int) :
    Except String (List Task) × List Task :=
  if bodies.isEmpty then (Except.error "400 Tasks array is required", store)
  else bulkLoop user genId now bodies 0 [] store

/-- getTaskById: findOne by id among non-deleted tasks; 404 when absent. -/
def getTaskById (store : List Task) (id : String) : Except String Task :=
  match findOne store (fun t => t.id == id && !t.isDeleted) with
  | none => Except.error "404 Task not found"
  | some t => Except.ok t

/-- A request body for task update, after validate(updateTaskSchema):
every schema field optional. -/
structure TaskUpdateBody where
  title : Option String
  description : Option String
  status : Option String
  priority : Option String
  dueDate : Option Int
  tags : Option (List String)
  assignedTo : Option String
deriving Repr, DecidableEq

/-- The $set of the update body onto a task, with the mongoose timestamp
bump of updatedAt. -/
def applyTaskUpdate (u : TaskUpdateBody) (now : Int) (t : Task) : Task :=
  { t with
    title := u.title.getD t.title
    description := match u.description with | some d => some d | none => t.description
    status := u.status.getD t.status
    priority := u.priority.getD t.priority
    dueDate := match u.dueDate with | some d => some d | none => t.dueDate
    tags := u.tags.getD t.tags
    assignedTo := match u.assignedTo with | some a => some a | none => t.assignedTo
    updatedAt := now }

/-- updateTask: validate the id and assignedTo, then findOneAndUpdate among
non-deleted tasks; 404 when no live task has the id.  The handler never
consults user (req.user), so the outcome is the same for every
authenticated identity. -/
def updateTask (store : List Task) (user : User) (id : String)
    (body : TaskUpdateBody) (now : Int) : Except String Task × List Task :=
  if !isValidObjectId id then
    (Except.error "400 Invalid task ID", store)
  else if truthy body.assignedTo && !isValidObjectId (body.assignedTo.getD "") then
    (Except.error "400 Invalid assignedTo ID", store)
  else
    match findOneAndUpdate store (fun t => t.id == id && !t.isDeleted)
        (applyTaskUpdate body now) with
    | (none, s) => (Except.error "404 Task not found", s)
    | (some t, s) => (Except.ok t, s)

/-- deleteTask: findOneAndUpdate among non-deleted tasks setting isDeleted
and deletedAt; 404 when no live task has the id.  As in updateTask, user
(req.user) is never consulted. -/
def deleteTask (store : List Task) (user : User) (id : String) (now : Int) :
    Except String Unit × List Task :=
  match findOneAndUpdate store (fun t => t.id == id && !t.isDeleted)
      (fun t => { t with isDeleted := true, deletedAt := some now, updatedAt := now }) with
  | (none, s) => (Except.error "404 Task not found", s)
  | (some _, s) => (Except.ok (), s)

/-! Comments (controllers/commentController.js). -/

/-- addComment: 404 when the parent task is missing or deleted; otherwise
save a comment whose author is the authenticated identity. -/
def addComment (comments : List Comment) (tasks : List Task) (user : User)
    (taskId : String) (content : String) (newId : String) (now : Int) :
    Except String Comment × List Comment :=
  match findOne tasks (fun t => t.id == taskId && !t.isDeleted) with
  | none => (Except.error "404 Task not found", comments)
  | some _ =>
    let c : Comment :=
      { id := newId, content := content, task := taskId, author := user.id
        isDeleted := false, deletedAt := none, createdAt := now, updatedAt := now }
    (Except.ok c, comments ++ [c])

/-- getComments: 404 when the parent task is missing or deleted; otherwise
the non-deleted comments of the task, sorted by createdAt ascending. -/
def getComments (comments : List Comment) (tasks : List Task)
    (taskId : String) : Except String (List Comment) :=
  match findOne tasks (fun t => t.id == taskId && !t.isDeleted) with
  | none => Except.error "404 Task not found"
  | some _ =>
    Except.ok ((comments.filter (fun c => c.task == taskId && !c.isDeleted)).mergeSort
      (fun a b => decide (a.createdAt ≤ b.createdAt)))

/-- updateComment: findOneAndUpdate filtered by id, author equal to the
authenticated identity, and not deleted; when nothing matches the response
is the 404 Comment not found or unauthorized. -/
def updateComment (comments : List Comment) (user : User) (id : String)
    (content : String) (now : Int) : Except String Comment × List Comment :=
  match findOneAndUpdate comments
      (fun c => c.id == id && c.author == user.id && !c.isDeleted)
      (fun c => { c with content := content, updatedAt := now }) with
  | (none, s) => (Except.error "404 Comment not found or unauthorized", s)
  | (some c, s) => (Except.ok c, s)

/-- deleteComment: same filter as updateComment, setting isDeleted and
deletedAt; 404 Comment not found or unauthorized when nothing matches. -/
def deleteComment (comments : List Comment) (user : User) (id : String)
    (now : Int) : Except String Unit × List Comment :=
  match findOneAndUpdate comments
      (fun c => c.id == id && c.author == user.id && !c.isDeleted)
      (fun c => { c with isDeleted := true, deletedAt := some now, updatedAt := now }) with
  | (none, s) => (Except.error "404 Comment not found or unauthorized", s)
  | (some _, s) => (Except.ok (), s)

/-! Files (controllers/fileController.js).  The filesystem is modelled as
the set of paths that exist on disk. -/

/-- The multer description of one uploaded payload. -/
structure UploadInfo where
  filename : String
  originalname : String
  mimetype : String
  size : Nat
  path : String
deriving Repr, DecidableEq

/-- uploadFiles: 404 when the parent task is missing or deleted, 400 when
no payloads arrived; otherwise save one metadata document per payload with
uploadedBy set to the authenticated identity. -/
def uploadFiles (files : List FileRec) (tasks : List Task) (user : User)
    (taskId : String) (uploads : List UploadInfo) (genId : Nat → String)
    (now : Int) : Except String (List FileRec) × List FileRec :=
  match findOne tasks (fun t => t.id == taskId && !t.isDeleted) with
  | none => (Except.error "404 Task not found", files)
  | some _ =>
    if uploads.isEmpty then
      (Except.error "400 No files uploaded", files)
    else
      let docs := (List.range uploads.length).zip uploads |>.map (fun nu =>
        { id := genId nu.fst
          filename := nu.snd.filename
          originalName := nu.snd.originalname
          mimetype := nu.snd.mimetype
          size := nu.snd.size
          path := nu.snd.path
          task := taskId
          uploadedBy := user.id
          isDeleted := false
          deletedAt := none
          createdAt := now : FileRec })
      (Except.ok docs, files ++ docs)

/-- The possible outcomes of downloadFile. -/
inductive DownloadResult where
  | notFound
  | serverError
  | forbidden
  | missingOnDisk
  | streamed (f : FileRec)
deriving Repr, DecidableEq

/-- downloadFile: findOne by id among non-deleted files with the parent
task populated; 404 when absent.  Streaming is allowed only when the
authenticated identity is the task creator or the task assignee — the
check never reads uploadedBy or the role.  A dangling task reference makes
the access check throw, caught as 500.  A path absent from disk is a
second 404. -/
def downloadFile (files : List FileRec) (tasks : List Task)
    (disk : List String) (user : User) (id : String) : DownloadResult :=
  match findOne files (fun f => f.id == id && !f.isDeleted) with
  | none => DownloadResult.notFound
  | some f =>
    match findOne tasks (fun t => t.id == f.task) with
    | none => DownloadResult.serverError
    | some t =>
      if t.createdBy != user.id &&
          (match t.assignedTo with | some a => a != user.id | none => true) then
        DownloadResult.forbidden
      else if !disk.contains f.path then
        DownloadResult.missingOnDisk
      else
        DownloadResult.streamed f

/-- getFilesForTask: 404 when the parent task is missing or deleted;
otherwise the non-deleted files of the task, sorted by createdAt
descending. -/
def getFilesForTask (files : List FileRec) (tasks : List Task)
    (taskId : String) : Except String (List FileRec) :=
  match findOne tasks (fun t => t.id == taskId && !t.isDeleted) with
  | none => Except.error "404 Task not found"
  | some _ =>
    Except.ok ((files.filter (fun f => f.task == taskId && !f.isDeleted)).mergeSort
      (fun a b => decide (b.createdAt ≤ a.createdAt)))

/-- The possible outcomes of deleteFile. -/
inductive DeleteFileResult where
  | notFound
  | serverError
  | forbidden
  | ok
deriving Repr, DecidableEq

/-- deleteFile: findOne by id among non-deleted files with the parent task
populated; 404 when absent.  Allowed only for the uploader or the task
creator (no role check); otherwise 403.  On success the metadata document
gets its isDeleted flag and deletedAt timestamp set and the payload is
unlinked from disk when present. -/
def deleteFile (files : List FileRec) (tasks : List Task)
    (disk : List String) (user : User) (id : String) (now : Int) :
    DeleteFileResult × List FileRec × List String :=
  match findOne files (fun f => f.id == id && !f.isDeleted) with
  | none => (DeleteFileResult.notFound, files, disk)
  | some f =>
    match findOne tasks (fun t => t.id == f.task) with
    | none => (DeleteFileResult.serverError, files, disk)
    | some t =>
      if f.uploadedBy != user.id && t.createdBy != user.id then
        (DeleteFileResult.forbidden, files, disk)
      else
        let files2 := (findOneAndUpdate files (fun g => g.id == f.id && !g.isDeleted)
          (fun g => { g with isDeleted := true, deletedAt := some now })).snd
        let disk2 := if disk.contains f.path then disk.erase f.path else disk
        (DeleteFileResult.ok, files2, disk2)

/-! Analytics (controllers/analyticsController.js). -/

/-- A $group by a string key with $sum 1: one pair per distinct key value,
in first-appearance order, carrying the number of documents with that
key. -/
def groupCountBy (f : α → String) (l : List α) : List (String × Nat) :=
  (l.map f).dedup.map (fun k => (k, (l.map f).count k))

/-- The flat overview structure. -/
structure OverviewStats where
  totalTasks : Nat
  completedTasks : Nat
  pendingTasks : Nat
  inProgressTasks : Nat
  overdueTasks : Nat
deriving Repr, DecidableEq

/-- getOverview: status group counts over non-deleted tasks, their sum as
totalTasks, the done/todo/in-progress buckets read from the status map with 0
for an absent bucket, and a separate count of non-deleted tasks with a due
date before now and status other than done. -/
def getOverview (store : List Task) (now : Int) : OverviewStats :=
  let statusStats := groupCountBy (fun t => t.status) (store.filter (fun t => !t.isDeleted))
  let overdue := countDocs store (fun t => !t.isDeleted &&
    (match t.dueDate with | some d => decide (d < now) | none => false) &&
    t.status != "done")
  { totalTasks := (statusStats.map (fun s => s.snd)).foldl (· + ·) 0
    completedTasks := ((statusStats.lookup "done").getD 0)
    pendingTasks := ((statusStats.lookup "todo").getD 0)
    inProgressTasks := ((statusStats.lookup "in-progress").getD 0)
    overdueTasks := overdue }

/-- One row of the performance response. -/
structure PerfRow where
  userId : String
  username : String
  totalTasks : Nat
  completedTasks : Nat
  completionRate : Rat
  averageCompletionTime : Rat
deriving Repr, DecidableEq

/-- The per-user body of getPerformance: assigned and completed counts over
non-deleted tasks, the guarded completion rate, and the average of
updatedAt - createdAt over completed assigned tasks converted from
milliseconds to days, 0 when the aggregation matches nothing. -/
def perfRowFor (store : List Task) (u : User) : PerfRow :=
  let assigned := countDocs store (fun t => t.assignedTo == some u.id && !t.isDeleted)
  let completed := countDocs store (fun t =>
    t.assignedTo == some u.id && t.status == "done" && !t.isDeleted)
  let durations : List Int := (store.filter (fun t =>
    t.assignedTo == some u.id && t.status == "done" && !t.isDeleted)).map
    (fun t => t.updatedAt - t.createdAt)
  { userId := u.id
    username := u.username
    totalTasks := assigned
    completedTasks := completed
    completionRate :=
      if assigned > 0 then ((completed : Rat) / (assigned : Rat)) * 100 else 0
    averageCompletionTime :=
      if durations.isEmpty then 0
      else ((durations.map (fun d => (Int.cast d : Rat))).foldl (· + ·) 0
        / (durations.length : Rat)) / (1000 * 60 * 60 * 24) }

/-- getPerformance: one row per user record, in store order. -/
def getPerformance (users : List User) (store : List Task) : List PerfRow :=
  users.map (perfRowFor store)

/-! Spec-side statements of the filter semantics, written from the words of
the specification for comparison with the query evaluator. -/

/-- A task hits a free-text term when the term occurs case-insensitively in
the title, in the description, or in at least one tag. -/
def searchHits (s : String) (t : Task) : Prop :=
  regexMatchCI s t.title = true ∨
  (∃ d, t.description = some d ∧ regexMatchCI s d = true) ∨
  (∃ tg ∈ t.tags, regexMatchCI s tg = true)

/-- The task list filter as the specification states it: non-deleted, every
supplied (nonempty) equality filter satisfied, and any supplied (nonempty)
free-text term hit, all conjoined. -/
def specTaskFilter (p : TaskListParams) (t : Task) : Prop :=
  t.isDeleted = false ∧
  (∀ s, p.status = some s → s ≠ "" → t.status = s) ∧
  (∀ s, p.priority = some s → s ≠ "" → t.priority = s) ∧
  (∀ a, p.assignedTo = some a → a ≠ "" → t.assignedTo = some a) ∧
  (∀ s, p.search = some s → s ≠ "" → searchHits s t)

/-! Concrete fixtures used by counterexamples and witnesses. -/

/-- An update body touching nothing. -/
def emptyUpdateBody : TaskUpdateBody :=
  { title := none, description := none, status := none, priority := none
    dueDate := none, tags := none, assignedTo := none }

/-- The task list query with every parameter omitted. -/
def qEmpty : TaskListParams :=
  { status := none, priority := none, assignedTo := none, search := none
    page := none, limit := none, sortBy := none, sortOrder := none }

def uAlice : User :=
  { id := "aaaaaaaaaaaaaaaaaaaaaaaa", username := "alice", role := "user", isActive := true }

def uBob : User :=
  { id := "bbbbbbbbbbbbbbbbbbbbbbbb", username := "bob", role := "user", isActive := true }

def uCarol : User :=
  { id := "cccccccccccccccccccccccc", username := "carol", role := "admin", isActive := true }

def uDave : User :=
  { id := "dddddddddddddddddddddddd", username := "dave", role := "admin", isActive := true }

/-- A live task created by alice, assigned to bob. -/
def taskSpec : Task :=
  { id := "111111111111111111111111", title := "Write spec"
    description := some "first job", status := "todo", priority := "medium"
    dueDate := some 50, tags := ["docs"], assignedTo := some uBob.id
    createdBy := uAlice.id, isDeleted := false, deletedAt := none
    createdAt := 1, updatedAt := 1 }

/-- A live task created by alice, unassigned, already done. -/
def taskDone : Task :=
  { id := "222222222222222222222222", title := "beta JOB"
    description := none, status := "done", priority := "high"
    dueDate := none, tags := [], assignedTo := some uBob.id
    createdBy := uAlice.id, isDeleted := false, deletedAt := none
    createdAt := 2, updatedAt := 6 }

/-- A soft-deleted task whose tag would hit the search term. -/
def taskGone : Task :=
  { id := "333333333333333333333333", title := "gamma"
    description := some "other", status := "todo", priority := "low"
    dueDate := some 999, tags := ["job"], assignedTo := none
    createdBy := uBob.id, isDeleted := true, deletedAt := some 9
    createdAt := 3, updatedAt := 9 }

def sampleTasks : List Task := [taskSpec, taskDone, taskGone]

/-- A live comment by bob on the spec task. -/
def commentBob : Comment :=
  { id := "444444444444444444444444", content := "hi", task := taskSpec.id
    author := uBob.id, isDeleted := false, deletedAt := none
    createdAt := 4, updatedAt := 4 }

/-- A live file on the spec task uploaded by carol. -/
def fileCarol : FileRec :=
  { id := "555555555555555555555555", filename := "a.txt", originalName := "a.txt"
    mimetype := "text/plain", size := 3, path := "/uploads/a.txt"
    task := taskSpec.id, uploadedBy := uCarol.id, isDeleted := false
    deletedAt := none, createdAt := 5 }

/-- A create body that smuggles the id of bob into createdBy. -/
def bodySmuggle : TaskBody :=
  { title := "x", description := none, status := none, priority := none
    dueDate := none, tags := none, assignedTo := none, createdBy := some uBob.id }

/-- The task the controller stores for bodySmuggle on behalf of alice. -/
def taskFromSmuggle : Task :=
  saveTask { bodySmuggle with createdBy := some uAlice.id } "666666666666666666666666" 9

/-- The comment the controller stores for carol. -/
def commentHello : Comment :=
  { id := "777777777777777777777777", content := "hello", task := taskSpec.id
    author := uCarol.id, isDeleted := false, deletedAt := none
    createdAt := 9, updatedAt := 9 }

/-- Page 2 of size 1, ascending by creation time. -/
def pPage2 : TaskListParams :=
  { qEmpty with
    page := some 2, limit := some 1, sortBy := some "createdAt", sortOrder := some "asc" }

/-- Page 4 of size 1, ascending by creation time. -/
def pPage4 : TaskListParams := { pPage2 with page := some 4 }

/-- Page 1 of size 10 filtered by status todo with search term job. -/
def pTodoJob : TaskListParams :=
  { qEmpty with
    page := some 1, limit := some 10, status := some "todo", search := some "job" }

/-- A valid bulk item. -/
def bodyOk : TaskBody :=
  { title := "good", description := none, status := none, priority := none
    dueDate := none, tags := none, assignedTo := none, createdBy := none }

/-- A bulk item whose assignedTo is not a valid ObjectId. -/
def bodyBad : TaskBody :=
  { title := "oops", description := none, status := none, priority := none
    dueDate := none, tags := none, assignedTo := some "zzz", createdBy := none }

/-- The sample store after soft-deleting the task of alice at time 77. -/
def sampleTasksDeleted : List Task :=
  [{ taskSpec with isDeleted := true, deletedAt := some 77, updatedAt := 77 },
    taskDone, taskGone]

/-- The comment of bob after its soft delete at time 8. -/
def commentBobDeleted : Comment :=
  { commentBob with isDeleted := true, deletedAt := some 8, updatedAt := 8 }

/-- The file of carol after its soft delete at time 7. -/
def fileCarolDeleted : FileRec :=
  { fileCarol with isDeleted := true, deletedAt := some 7 }

/-! Shared lemmas about the modelled store operations. -/

theorem findOneAndUpdate_fst (store : List α) (flt : α → Bool) (upd : α → α) :
    (findOneAndUpdate store flt upd).fst = (store.find? flt).map upd := by
  induction store with
  | nil => rfl
  | cons a rest ih =>
    by_cases h : flt a
    · simp [findOneAndUpdate, List.find?_cons_of_pos _ h, h]
    · simp [findOneAndUpdate, List.find?_cons_of_neg _ h, h, ih]

theorem findOneAndUpdate_map_key (key : α → β) {store : List α} {flt : α → Bool}
    {upd : α → α} (h : ∀ x, key (upd x) = key x) :
    (findOneAndUpdate store flt upd).snd.map key = store.map key := by
  induction store with
  | nil => rfl
  | cons a rest ih =>
    by_cases hf : flt a
    · simp [findOneAndUpdate, hf, h]
    · simp [findOneAndUpdate, hf, ih]

theorem findOneAndUpdate_length (store : List α) (flt : α → Bool) (upd : α → α) :
    (findOneAndUpdate store flt upd).snd.length = store.length := by
  induction store with
  | nil => rfl
  | cons a rest ih =>
    by_cases hf : flt a
    · simp [findOneAndUpdate, hf]
    · simp [findOneAndUpdate, hf, ih]

theorem findOneAndUpdate_some {store : List α} {flt : α → Bool} {upd : α → α} {y : α}
    (h : (findOneAndUpdate store flt upd).fst = some y) :
    ∃ pre x post, store = pre ++ x :: post ∧ (∀ z ∈ pre, flt z = false) ∧
      flt x = true ∧ y = upd x ∧
      (findOneAndUpdate store flt upd).snd = pre ++ upd x :: post := by
  induction store with
  | nil => simp [findOneAndUpdate] at h
  | cons a rest ih =>
    by_cases hf : flt a
    · refine ⟨[], a, rest, rfl, by simp, hf, ?_, ?_⟩
      · simp [findOneAndUpdate, hf] at h
        exact h.symm
      · simp [findOneAndUpdate, hf]
    · simp only [findOneAndUpdate, hf] at h
      obtain ⟨pre, x, post, hst, hpre, hx, hy, hsnd⟩ := ih h
      refine ⟨a :: pre, x, post, by rw [hst]; rfl, ?_, hx, hy, ?_⟩
      · intro z hz
        rcases List.mem_cons.mp hz with rfl | hzp
        · exact Bool.eq_false_iff.mpr hf
        · exact hpre z hzp
      · simp [findOneAndUpdate, hf, hsnd]

/-- The spine of the soft-delete pattern: after a successful
findOneAndUpdate whose filter selects the live document with a given key
and whose update marks deletion, the result is in the new store, carries
the key, is marked deleted, arises from a stored document, and no live
document with the key remains. -/
theorem foau_soft_delete {key : α → String} {del : α → Bool}
    {store : List α} {flt : α → Bool} {upd : α → α} {k : String} {y : α}
    (hnd : (store.map key).Nodup)
    (h : (findOneAndUpdate store flt upd).fst = some y)
    (hflt : ∀ x, flt x = (key x == k && !del x))
    (hkey : ∀ x, key (upd x) = key x)
    (hdel : ∀ x, del (upd x) = true) :
    y ∈ (findOneAndUpdate store flt upd).snd ∧ key y = k ∧ del y = true ∧
    (∃ x ∈ store, y = upd x) ∧
    (∀ z ∈ (findOneAndUpdate store flt upd).snd, key z = k → del z = true) := by
  obtain ⟨pre, x, post, hst, hpre, hx, hy, hsnd⟩ := findOneAndUpdate_some h
  rw [hflt] at hx
  have hxk : key x = k := by
    have := (Bool.and_eq_true _ _).mp hx |>.1
    exact beq_iff_eq.mp this
  have hnd2 : ((pre.map key) ++ key x :: post.map key).Nodup := by
    rw [hst] at hnd
    simpa using hnd
  have hknotpost : key x ∉ post.map key := by
    have := (List.nodup_append.mp hnd2).2.1
    exact (List.nodup_cons.mp this).1
  refine ⟨?_, ?_, hdel x ▸ (hy ▸ rfl), ⟨x, by rw [hst]; simp, hy⟩, ?_⟩
  · rw [hsnd, hy]
    exact List.mem_append_right _ (List.mem_cons_self _ _)
  · rw [hy, hkey, hxk]
  · intro z hz hzk
    rw [hsnd] at hz
    rcases List.mem_append.mp hz with hzp | hzc
    · have := hpre z hzp
      rw [hflt] at this
      have : ¬(key z == k && !del z) = true := by rw [this]; simp
      by_contra hdelz
      exact this (by simp [hzk, Bool.eq_false_iff.mpr hdelz])
    · rcases List.mem_cons.mp hzc with rfl | hzpost
      · exact hdel x
      · exfalso
        apply hknotpost
        rw [hxk, ← hzk]
        exact List.mem_map_of_mem key hzpost

/-- find? returns the unique element carrying the key that the predicate
pins down, when keys are nodup. -/
theorem find?_key_unique {key : α → String} {l : List α} {p : α → Bool} {x : α}
    (hnd : (l.map key).Nodup) (hx : x ∈ l) (hpx : p x = true)
    (hkeyed : ∀ z, p z = true → key z = key x) :
    l.find? p = some x := by
  induction l with
  | nil => cases hx
  | cons a rest ih =>
    rw [List.map_cons, List.nodup_cons] at hnd
    rcases List.mem_cons.mp hx with rfl | hxr
    · rw [List.find?_cons_of_pos _ hpx]
    · by_cases hpa : p a = true
      · exact absurd ((hkeyed a hpa) ▸ List.mem_map_of_mem key hxr) hnd.1
      · rw [List.find?_cons_of_neg _ hpa]
        exact ih hnd.2 hxr

/-- Every task the query execution returns is stored and matches the
filter document. -/
theorem mem_taskFindExec {store : List Task} {plan : QueryPlan} {t : Task}
    (h : t ∈ taskFindExec store plan) :
    t ∈ store ∧ matchesTaskQuery plan.doc t = true := by
  unfold taskFindExec at h
  have hs : t ∈ (store.filter (matchesTaskQuery plan.doc)).mergeSort
      (sortComparator plan.sortBy plan.sortOrder) := by
    split at h
    · exact List.mem_of_mem_drop (List.mem_of_mem_take h)
    · exact h
  have := List.mem_filter.mp (List.mem_mergeSort.mp hs)
  exact this

/-- The filter document of getTasks always carries isDeleted false, so a
returned task is stored and live. -/
theorem getTasks_mem {store : List Task} {p : TaskListParams} {t : Task}
    (h : t ∈ (getTasks store p).tasks) : t ∈ store ∧ t.isDeleted = false := by
  have h2 : t ∈ taskFindExec store (getTasksPlan p) := h
  have hm := mem_taskFindExec h2
  refine ⟨hm.1, ?_⟩
  have := hm.2
  unfold matchesTaskQuery at this
  simp only [Bool.and_eq_true, beq_iff_eq] at this
  exact this.1.1.1.1

/-- C2: for every entity (Task, Comment, File), after a successful delete
the record still exists in storage (same row count, a row with the id
present) with its deleted flag and deletion timestamp set, it is excluded
from every default list query, and every by-id read or mutation of it
responds NotFound.  Ids are assumed pairwise distinct, as MongoDB
guarantees for a primary key. -/
theorem c2_soft_delete_lifecycle :
    (∀ (store store2 : List Task) (u : User) (id : String) (now : Int),
      (store.map Task.id).Nodup →
      deleteTask store u id now = (Except.ok (), store2) →
      (∃ t ∈ store2, t.id = id ∧ t.isDeleted = true ∧ t.deletedAt = some now) ∧
      store2.length = store.length ∧
      getTaskById store2 id = Except.error "404 Task not found" ∧
      (∀ (p : TaskListParams) (t : Task), t ∈ (getTasks store2 p).tasks → t.id ≠ id)) ∧
    (∀ (comments comments2 : List Comment) (u : User) (id : String) (now : Int),
      (comments.map Comment.id).Nodup →
      deleteComment comments u id now = (Except.ok (), comments2) →
      (∃ c ∈ comments2, c.id = id ∧ c.isDeleted = true ∧ c.deletedAt = some now) ∧
      comments2.length = comments.length ∧
      (∀ (tasks : List Task) (taskId : String) (l : List Comment),
        getComments comments2 tasks taskId = Except.ok l → ∀ c ∈ l, c.id ≠ id) ∧
      (∀ (v : User) (content : String) (now2 : Int),
        (updateComment comments2 v id content now2).fst =
          Except.error "404 Comment not found or unauthorized")) ∧
    (∀ (files files2 : List FileRec) (tasks : List Task) (disk disk2 : List String)
       (u : User) (id : String) (now : Int),
      (files.map FileRec.id).Nodup →
      deleteFile files tasks disk u id now = (DeleteFileResult.ok, files2, disk2) →
      (∃ f ∈ files2, f.id = id ∧ f.isDeleted = true ∧ f.deletedAt = some now) ∧
      files2.length = files.length ∧
      (∀ (taskId : String) (l : List FileRec),
        getFilesForTask files2 tasks taskId = Except.ok l → ∀ f ∈ l, f.id ≠ id) ∧
      (∀ (v : User) (disk3 : List String),
        downloadFile files2 tasks disk3 v id = DownloadResult.notFound)) := by
  refine ⟨?_, ?_, ?_⟩
  · -- tasks
    intro store store2 u id now hnd hrun
    unfold deleteTask at hrun
    split at hrun
    case h_1 s heq => simp at hrun
    case h_2 y s heq =>
    have hfst : (findOneAndUpdate store
        (fun t => t.id == id && !t.isDeleted)
        (fun t => { t with isDeleted := true, deletedAt := some now, updatedAt := now })).fst
        = some y := by rw [heq]
    have hsnd : (findOneAndUpdate store
        (fun t => t.id == id && !t.isDeleted)
        (fun t => { t with isDeleted := true, deletedAt := some now, updatedAt := now })).snd
        = store2 := by
      rw [heq]
      exact congrArg Prod.snd hrun
    obtain ⟨hymem, hyk, hydel, ⟨x, hxmem, hyx⟩, hexcl⟩ :=
      foau_soft_delete hnd hfst (fun x => rfl) (fun x => rfl) (fun x => rfl)
    rw [hsnd] at hymem hexcl
    have hnolive : ∀ z ∈ store2, ¬(z.id == id && !z.isDeleted) = true := by
      intro z hz hcon
      simp only [Bool.and_eq_true, beq_iff_eq, Bool.not_eq_true'] at hcon
      have := hexcl z hz hcon.1
      rw [this] at hcon
      exact absurd hcon.2 (by simp)
    refine ⟨⟨y, hymem, hyk, hydel, by rw [hyx]⟩, ?_, ?_, ?_⟩
    · rw [← hsnd]
      exact findOneAndUpdate_length ..
    · unfold getTaskById findOne
      rw [List.find?_eq_none.mpr hnolive]
    · intro p t ht hid
      obtain ⟨htmem, htlive⟩ := getTasks_mem ht
      have := hexcl t htmem hid
      rw [htlive] at this
      cases this
  · -- comments
    intro comments comments2 u id now hnd hrun
    unfold deleteComment at hrun
    split at hrun
    case h_1 s heq => simp at hrun
    case h_2 y s heq =>
    have hfst : (findOneAndUpdate comments
        (fun c => c.id == id && c.author == u.id && !c.isDeleted)
        (fun c => { c with isDeleted := true, deletedAt := some now, updatedAt := now })).fst
        = some y := by rw [heq]
    have hsnd : (findOneAndUpdate comments
        (fun c => c.id == id && c.author == u.id && !c.isDeleted)
        (fun c => { c with isDeleted := true, deletedAt := some now, updatedAt := now })).snd
        = comments2 := by
      rw [heq]
      exact congrArg Prod.snd hrun
    obtain ⟨pre, x, post, hst, hpre, hx, hy, hsnd2⟩ := findOneAndUpdate_some hfst
    rw [hsnd] at hsnd2
    simp only [Bool.and_eq_true, beq_iff_eq, Bool.not_eq_true'] at hx
    have hxid : x.id = id := hx.1.1
    have hnd2 : ((pre.map Comment.id) ++ x.id :: post.map Comment.id).Nodup := by
      rw [hst] at hnd
      simpa using hnd
    have hknotpost : x.id ∉ post.map Comment.id :=
      (List.nodup_cons.mp (List.nodup_append.mp hnd2).2.1).1
    have hdisj : (pre.map Comment.id).Disjoint (x.id :: post.map Comment.id) :=
      (List.nodup_append.mp hnd2).2.2
    have hexcl : ∀ z ∈ comments2, z.id = id → z.isDeleted = true := by
      intro z hz hzk
      rw [hsnd2] at hz
      rcases List.mem_append.mp hz with hzp | hzc
      · exact absurd (List.mem_cons_self _ _)
          (hdisj (hxid ▸ hzk ▸ List.mem_map_of_mem Comment.id hzp))
      · rcases List.mem_cons.mp hzc with rfl | hzpost
        · rfl
        · exact absurd (hxid ▸ hzk ▸ List.mem_map_of_mem Comment.id hzpost) hknotpost
    refine ⟨⟨y, by rw [hsnd2, hy]; exact List.mem_append_right _ (List.mem_cons_self _ _),
        by rw [hy]; exact hxid, by rw [hy], by rw [hy]⟩, ?_, ?_, ?_⟩
    · rw [← hsnd]
      exact findOneAndUpdate_length ..
    · intro tasks taskId l hok c hc hcid
      unfold getComments at hok
      split at hok
      · cases hok
      · have hl : l = (comments2.filter
            (fun c => c.task == taskId && !c.isDeleted)).mergeSort
            (fun a b => decide (a.createdAt ≤ b.createdAt)) := by
          cases hok
          rfl
        rw [hl] at hc
        have := List.mem_filter.mp (List.mem_mergeSort.mp hc)
        have hlive : c.isDeleted = false := by
          have h2 := this.2
          simp only [Bool.and_eq_true, Bool.not_eq_true'] at h2
          exact h2.2
        have := hexcl c this.1 hcid
        rw [hlive] at this
        cases this
    · intro v content now2
      unfold updateComment
      have hnone : comments2.find?
          (fun c => c.id == id && c.author == v.id && !c.isDeleted) = none := by
        rw [List.find?_eq_none]
        intro z hz hcon
        simp only [Bool.and_eq_true, beq_iff_eq, Bool.not_eq_true'] at hcon
        have := hexcl z hz hcon.1.1
        rw [this] at hcon
        exact absurd hcon.2 (by simp)
      split
      · rfl
      case h_2 c s heq =>
        exfalso
        have : (findOneAndUpdate comments2
            (fun c => c.id == id && c.author == v.id && !c.isDeleted)
            (fun c => { c with content := content, updatedAt := now2 })).fst = some c := by
          rw [heq]
        rw [findOneAndUpdate_fst, hnone] at this
        cases this
  · -- files
    intro files files2 tasks disk disk2 u id now hnd hrun
    unfold deleteFile at hrun
    split at hrun
    case h_1 heq => simp at hrun
    case h_2 f heq =>
    split at hrun
    case h_1 heq2 => simp at hrun
    case h_2 t heq2 =>
    split at hrun
    · simp at hrun
    · have hfid : f.id = id := by
        have := List.find?_some heq
        simp only [Bool.and_eq_true, beq_iff_eq] at this
        exact this.1
      have hfmem : f ∈ files := List.mem_of_find?_eq_some heq
      have hflive : f.isDeleted = false := by
        have := List.find?_some heq
        simp only [Bool.and_eq_true, Bool.not_eq_true'] at this
        exact this.2
      have hfsome : ∃ y, (findOneAndUpdate files
          (fun g => g.id == f.id && !g.isDeleted)
          (fun g => { g with isDeleted := true, deletedAt := some now })).fst = some y := by
        rw [findOneAndUpdate_fst]
        have : files.find? (fun g => g.id == f.id && !g.isDeleted) = some f :=
          find?_key_unique hnd hfmem (by simp [hflive])
            (fun z hz => by
              simp only [Bool.and_eq_true, beq_iff_eq] at hz
              exact hz.1)
        rw [this]
        exact ⟨_, rfl⟩
      obtain ⟨y, hfst⟩ := hfsome
      have hsnd : (findOneAndUpdate files
          (fun g => g.id == f.id && !g.isDeleted)
          (fun g => { g with isDeleted := true, deletedAt := some now })).snd = files2 := by
        have := congrArg (fun r => r.snd.fst) hrun
        simpa using this
      obtain ⟨hymem, hyk, hydel, ⟨x, hxmem, hyx⟩, hexcl⟩ :=
        foau_soft_delete hnd hfst (fun x => rfl) (fun x => rfl) (fun x => rfl)
      rw [hsnd] at hymem hexcl
      have hexcl2 : ∀ z ∈ files2, z.id = id → z.isDeleted = true := by
        intro z hz hzk
        exact hexcl z hz (by rw [hzk, hfid])
      have hnolive : ∀ z ∈ files2, ¬(z.id == id && !z.isDeleted) = true := by
        intro z hz hcon
        simp only [Bool.and_eq_true, beq_iff_eq, Bool.not_eq_true'] at hcon
        have := hexcl2 z hz hcon.1
        rw [this] at hcon
        exact absurd hcon.2 (by simp)
      refine ⟨⟨y, hymem, hyk.trans hfid, hydel, by rw [hyx]⟩, ?_, ?_, ?_⟩
      · rw [← hsnd]
        exact findOneAndUpdate_length ..
      · intro taskId l hok g hg hgid
        unfold getFilesForTask at hok
        split at hok
        · cases hok
        · have hl : l = (files2.filter
              (fun f => f.task == taskId && !f.isDeleted)).mergeSort
              (fun a b => decide (b.createdAt ≤ a.createdAt)) := by
            cases hok
            rfl
          rw [hl] at hg
          have := List.mem_filter.mp (List.mem_mergeSort.mp hg)
          have hlive : g.isDeleted = false := by
            have h2 := this.2
            simp only [Bool.and_eq_true, Bool.not_eq_true'] at h2
            exact h2.2
          have := hexcl2 g this.1 hgid
          rw [hlive] at this
          cases this
      · intro v disk3
        unfold downloadFile findOne
        rw [List.find?_eq_none.mpr hnolive]

/-- The response component of updateTask, once both id validations pass:
determined by the first live task with the id. -/
theorem updateTask_fst (store : List Task) (u : User) (id : String)
    (body : TaskUpdateBody) (now : Int)
    (hid : isValidObjectId id = true)
    (hbody : (truthy body.assignedTo &&
      !isValidObjectId (body.assignedTo.getD "")) = false) :
    (updateTask store u id body now).fst =
      (match store.find? (fun t => t.id == id && !t.isDeleted) with
       | none => Except.error "404 Task not found"
       | some t => Except.ok (applyTaskUpdate body now t)) := by
  unfold updateTask
  rw [hid, hbody]
  rw [if_neg (by simp), if_neg (by simp)]
  rcases hFU : findOneAndUpdate store (fun t => t.id == id && !t.isDeleted)
      (applyTaskUpdate body now) with ⟨fst, snd⟩
  have h1 : fst = (store.find? (fun t => t.id == id && !t.isDeleted)).map
      (applyTaskUpdate body now) := by
    rw [← findOneAndUpdate_fst, hFU]
  rcases hf : store.find? (fun t => t.id == id && !t.isDeleted) with _ | w
  · rw [hf] at h1
    simp at h1
    subst h1
    rw [hf]
  · rw [hf] at h1
    simp at h1
    subst h1
    rw [hf]

/-- The response component of deleteTask: determined by the first live task
with the id. -/
theorem deleteTask_fst (store : List Task) (u : User) (id : String) (now : Int) :
    (deleteTask store u id now).fst =
      (match store.find? (fun t => t.id == id && !t.isDeleted) with
       | none => Except.error "404 Task not found"
       | some _ => Except.ok ()) := by
  unfold deleteTask
  rcases hFU : findOneAndUpdate store (fun t => t.id == id && !t.isDeleted)
      (fun t => { t with isDeleted := true, deletedAt := some now, updatedAt := now })
      with ⟨fst, snd⟩
  have h1 : fst = (store.find? (fun t => t.id == id && !t.isDeleted)).map
      (fun t => { t with isDeleted := true, deletedAt := some now, updatedAt := now }) := by
    rw [← findOneAndUpdate_fst, hFU]
  rcases hf : store.find? (fun t => t.id == id && !t.isDeleted) with _ | w
  · rw [hf] at h1
    simp at h1
    subst h1
    rw [hf]
  · rw [hf] at h1
    simp at h1
    subst h1
    rw [hf]

/-- The response component of updateComment as a function of the first
matching live comment of the author. -/
theorem updateComment_fst (comments : List Comment) (u : User) (id content : String)
    (now : Int) :
    (updateComment comments u id content now).fst =
      (match comments.find? (fun c => c.id == id && c.author == u.id && !c.isDeleted) with
       | none => Except.error "404 Comment not found or unauthorized"
       | some c => Except.ok { c with content := content, updatedAt := now }) := by
  unfold updateComment
  rcases hFU : findOneAndUpdate comments
      (fun c => c.id == id && c.author == u.id && !c.isDeleted)
      (fun c => { c with content := content, updatedAt := now }) with ⟨fst, snd⟩
  have h1 : fst = (comments.find?
      (fun c => c.id == id && c.author == u.id && !c.isDeleted)).map
      (fun c => { c with content := content, updatedAt := now }) := by
    rw [← findOneAndUpdate_fst, hFU]
  rcases hf : comments.find? (fun c => c.id == id && c.author == u.id && !c.isDeleted)
      with _ | c
  · rw [hf] at h1
    simp at h1
    subst h1
    rw [hf]
  · rw [hf] at h1
    simp at h1
    subst h1
    rw [hf]

/-- The response component of deleteComment as a function of the first
matching live comment of the author. -/
theorem deleteComment_fst (comments : List Comment) (u : User) (id : String)
    (now : Int) :
    (deleteComment comments u id now).fst =
      (match comments.find? (fun c => c.id == id && c.author == u.id && !c.isDeleted) with
       | none => Except.error "404 Comment not found or unauthorized"
       | some _ => Except.ok ()) := by
  unfold deleteComment
  rcases hFU : findOneAndUpdate comments
      (fun c => c.id == id && c.author == u.id && !c.isDeleted)
      (fun c => { c with isDeleted := true, deletedAt := some now, updatedAt := now })
      with ⟨fst, snd⟩
  have h1 : fst = (comments.find?
      (fun c => c.id == id && c.author == u.id && !c.isDeleted)).map
      (fun c => { c with isDeleted := true, deletedAt := some now, updatedAt := now }) := by
    rw [← findOneAndUpdate_fst, hFU]
  rcases hf : comments.find? (fun c => c.id == id && c.author == u.id && !c.isDeleted)
      with _ | c
  · rw [hf] at h1
    simp at h1
    subst h1
    rw [hf]
  · rw [hf] at h1
    simp at h1
    subst h1
    rw [hf]

/-- C1 counterexample: bob, who is neither the creator of the task nor an
admin, updates and deletes the task of alice with plain success responses,
not Forbidden. -/
theorem c1_ownership_counterexample :
    uBob.id ≠ taskSpec.createdBy ∧ uBob.role ≠ "admin" ∧
    (updateTask [taskSpec] uBob taskSpec.id emptyUpdateBody 5).fst =
      Except.ok (applyTaskUpdate emptyUpdateBody 5 taskSpec) ∧
    (deleteTask [taskSpec] uBob taskSpec.id 7).fst = Except.ok () := by
  refine ⟨by decide, by decide, ?_, ?_⟩ <;> rfl

/-- C1 amended: task update and delete perform no ownership check at all —
the outcome never depends on the requesting identity and any authenticated
identity succeeds on any existing live task; comment update and delete
succeed exactly for the author, every other identity (admin included)
receiving the NotFound response rather than Forbidden; file delete is
permitted to the uploader or the parent task creator, every other identity
(admin included) receiving Forbidden. -/
theorem c1_ownership_amended :
    (∀ (store : List Task) (u v : User) (id : String) (body : TaskUpdateBody) (now : Int),
      updateTask store u id body now = updateTask store v id body now ∧
      deleteTask store u id now = deleteTask store v id now) ∧
    (∀ (store : List Task) (u : User) (t : Task) (now : Int),
      t ∈ store → t.isDeleted = false → isValidObjectId t.id = true →
      (∃ r, (updateTask store u t.id emptyUpdateBody now).fst = Except.ok r) ∧
      (deleteTask store u t.id now).fst = Except.ok ()) ∧
    (∀ (comments : List Comment) (u : User) (id content : String) (now : Int),
      ((∃ c, (updateComment comments u id content now).fst = Except.ok c) ↔
        ∃ c ∈ comments, c.id = id ∧ c.author = u.id ∧ c.isDeleted = false) ∧
      ((¬∃ c ∈ comments, c.id = id ∧ c.author = u.id ∧ c.isDeleted = false) →
        (updateComment comments u id content now).fst =
          Except.error "404 Comment not found or unauthorized" ∧
        (deleteComment comments u id now).fst =
          Except.error "404 Comment not found or unauthorized")) ∧
    (∀ (files : List FileRec) (tasks : List Task) (disk : List String)
       (u : User) (f : FileRec) (t : Task) (now : Int),
      files.find? (fun g => g.id == f.id && !g.isDeleted) = some f →
      tasks.find? (fun s => s.id == f.task) = some t →
      (f.uploadedBy ≠ u.id → t.createdBy ≠ u.id →
        (deleteFile files tasks disk u f.id now).fst = DeleteFileResult.forbidden) ∧
      ((f.uploadedBy = u.id ∨ t.createdBy = u.id) →
        (deleteFile files tasks disk u f.id now).fst = DeleteFileResult.ok)) := by
  refine ⟨fun store u v id body now => ⟨rfl, rfl⟩, ?_, ?_, ?_⟩
  · intro store u t now ht hlive hvalid
    have hex : ∃ x ∈ store, (x.id == t.id && !x.isDeleted) = true :=
      ⟨t, ht, by simp [hlive]⟩
    obtain ⟨w, hw⟩ := Option.isSome_iff_exists.mp (List.find?_isSome.mpr hex)
    constructor
    · refine ⟨applyTaskUpdate emptyUpdateBody now w, ?_⟩
      rw [updateTask_fst store u t.id emptyUpdateBody now hvalid rfl, hw]
    · rw [deleteTask_fst, hw]
  · intro comments u id content now
    constructor
    · rw [updateComment_fst]
      constructor
      · rintro ⟨c, hc⟩
        rcases hf : comments.find?
            (fun c => c.id == id && c.author == u.id && !c.isDeleted) with _ | w
        · rw [hf] at hc
          cases hc
        · have hw := List.find?_some hf
          simp only [Bool.and_eq_true, beq_iff_eq, Bool.not_eq_true'] at hw
          exact ⟨w, List.mem_of_find?_eq_some hf, hw.1.1, hw.1.2, hw.2⟩
      · rintro ⟨c, hcmem, hcid, hcauth, hclive⟩
        have hex : ∃ x ∈ comments,
            (x.id == id && x.author == u.id && !x.isDeleted) = true :=
          ⟨c, hcmem, by simp [hcid, hcauth, hclive]⟩
        obtain ⟨w, hw⟩ := Option.isSome_iff_exists.mp (List.find?_isSome.mpr hex)
        rw [hw]
        exact ⟨_, rfl⟩
    · intro hnone
      have hf : comments.find?
          (fun c => c.id == id && c.author == u.id && !c.isDeleted) = none := by
        rw [List.find?_eq_none]
        intro z hz hcon
        simp only [Bool.and_eq_true, beq_iff_eq, Bool.not_eq_true'] at hcon
        exact hnone ⟨z, hz, hcon.1.1, hcon.1.2, hcon.2⟩
      rw [updateComment_fst, deleteComment_fst, hf]
      exact ⟨rfl, rfl⟩
  · intro files tasks disk u f t now hf ht
    unfold deleteFile findOne
    simp only [hf, ht]
    constructor
    · intro hub hcb
      have h1 : (f.uploadedBy != u.id) = true := bne_iff_ne.mpr hub
      have h2 : (t.createdBy != u.id) = true := bne_iff_ne.mpr hcb
      rw [h1, h2]
      rfl
    · intro hor
      have hcond : (f.uploadedBy != u.id && t.createdBy != u.id) = false := by
        rcases hor with h | h
        · simp [h]
        · simp [h]
      rw [hcond]
      rfl

/-- C1 amended, instantiated: an admin who is not the creator updates a
task of alice with success; an admin who is not the author gets NotFound on
editing the comment of bob; an admin who is neither uploader nor task
creator gets Forbidden deleting the file of carol, while carol the uploader
succeeds. -/
theorem c1_ownership_amended_witness :
    (∃ r, (updateTask [taskSpec] uCarol taskSpec.id emptyUpdateBody 5).fst =
      Except.ok r) ∧
    (updateComment [commentBob] uCarol commentBob.id "edit" 6).fst =
      Except.error "404 Comment not found or unauthorized" ∧
    (deleteFile [fileCarol] [taskSpec] ["/uploads/a.txt"] uDave fileCarol.id 7).fst =
      DeleteFileResult.forbidden ∧
    (deleteFile [fileCarol] [taskSpec] ["/uploads/a.txt"] uCarol fileCarol.id 7).fst =
      DeleteFileResult.ok := by
  refine ⟨?_, ?_, ?_, ?_⟩
  · exact (c1_ownership_amended.2.1 [taskSpec] uCarol taskSpec 5 (by simp) (by decide)
      (by decide)).1
  · exact ((c1_ownership_amended.2.2.1 [commentBob] uCarol commentBob.id "edit" 6).2
      (by decide)).1
  · exact (c1_ownership_amended.2.2.2 [fileCarol] [taskSpec] ["/uploads/a.txt"]
      uDave fileCarol taskSpec 7 (by decide) (by decide)).1 (by decide) (by decide)
  · exact (c1_ownership_amended.2.2.2 [fileCarol] [taskSpec] ["/uploads/a.txt"]
      uCarol fileCarol taskSpec 7 (by decide) (by decide)).2 (Or.inl rfl)

/-- C4: the executed task list query does not use the schema defaults.  A
request with page and limit omitted passes validateQuery untouched (the Joi
value carrying the defaults is discarded), and the controller then hands
NaN (modelled none) to skip and limit and computes NaN page and pages,
whereas the defaulted value would have produced skip 0 and limit 10. -/
theorem c4_pagination_defaults_bug :
    validateTaskQuery qEmpty = Except.ok qEmpty ∧
    (getTasksPlan qEmpty).skipN = none ∧
    (getTasksPlan qEmpty).limitN = none ∧
    (getTasks [] qEmpty).page = none ∧
    (getTasks [] qEmpty).pages = none ∧
    (joiTaskQueryValue qEmpty).page = some 1 ∧
    (joiTaskQueryValue qEmpty).limit = some 10 ∧
    (getTasksPlan (joiTaskQueryValue qEmpty)).skipN = some 0 ∧
    (getTasksPlan (joiTaskQueryValue qEmpty)).limitN = some 10 := by
  refine ⟨rfl, rfl, rfl, rfl, rfl, rfl, rfl, rfl, rfl⟩

/-- Every record produced by the bulk creation loop is appended to the
store and carries the identity of the creator; a success response returns
exactly the accumulated records. -/
theorem bulkLoop_spec (u : User) (genId : Nat → String) (now : Int) :
    ∀ (bodies : List TaskBody) (n : Nat) (created store : List Task)
      (res : Except String (List Task)) (s2 : List Task),
      bulkLoop u genId now bodies n created store = (res, s2) →
      ∃ new, s2 = store ++ new ∧ (∀ t ∈ new, t.createdBy = u.id) ∧
        (∀ l, res = Except.ok l → l = created ++ new) := by
  intro bodies
  induction bodies with
  | nil =>
    intro n created store res s2 h
    unfold bulkLoop at h
    simp only [Prod.mk.injEq] at h
    refine ⟨[], by rw [← h.2]; simp, by simp, ?_⟩
    intro l hl
    rw [← h.1] at hl
    simp at hl
    simp [← hl]
  | cons b rest ih =>
    intro n created store res s2 h
    unfold bulkLoop at h
    dsimp only at h
    split at h
    · simp only [Prod.mk.injEq] at h
      refine ⟨[], by rw [← h.2]; simp, by simp, ?_⟩
      intro l hl
      rw [← h.1] at hl
      cases hl
    · obtain ⟨new2, hs2, hown, hok⟩ := ih (n + 1)
        (created ++ [saveTask { b with createdBy := some u.id } (genId n) now])
        (store ++ [saveTask { b with createdBy := some u.id } (genId n) now]) res s2 h
      refine ⟨saveTask { b with createdBy := some u.id } (genId n) now :: new2, ?_, ?_, ?_⟩
      · rw [hs2]
        simp
      · intro t htm
        rcases List.mem_cons.mp htm with rfl | htm2
        · rfl
        · exact hown t htm2
      · intro l hl
        rw [hok l hl]
        simp

/-- C3: every create path stamps the authenticated identity onto the owner
field, whatever the request body contained; the stored and returned records
coincide. -/
theorem c3_owner_from_identity :
    (∀ (store : List Task) (u : User) (body : TaskBody) (newId : String) (now : Int)
       (t : Task) (s2 : List Task),
      createTask store u body newId now = (Except.ok t, s2) →
      t.createdBy = u.id ∧ s2 = store ++ [t]) ∧
    (∀ (store : List Task) (u : User) (bodies : List TaskBody) (genId : Nat → String)
       (now : Int) (res : Except String (List Task)) (s2 : List Task),
      bulkCreateTasks store u bodies genId now = (res, s2) →
      (∃ new, s2 = store ++ new ∧ ∀ t ∈ new, t.createdBy = u.id) ∧
      (∀ l, res = Except.ok l → s2 = store ++ l ∧ ∀ t ∈ l, t.createdBy = u.id)) ∧
    (∀ (comments : List Comment) (tasks : List Task) (u : User)
       (taskId content newId : String) (now : Int) (c : Comment) (s2 : List Comment),
      addComment comments tasks u taskId content newId now = (Except.ok c, s2) →
      c.author = u.id ∧ s2 = comments ++ [c]) ∧
    (∀ (files : List FileRec) (tasks : List Task) (u : User) (taskId : String)
       (uploads : List UploadInfo) (genId : Nat → String) (now : Int)
       (l : List FileRec) (s2 : List FileRec),
      uploadFiles files tasks u taskId uploads genId now = (Except.ok l, s2) →
      (∀ f ∈ l, f.uploadedBy = u.id) ∧ s2 = files ++ l) := by
  refine ⟨?_, ?_, ?_, ?_⟩
  · intro store u body newId now t s2 h
    unfold createTask at h
    dsimp only at h
    split at h
    · simp at h
    · simp only [Prod.mk.injEq, Except.ok.injEq] at h
      obtain ⟨h1, h2⟩ := h
      subst h1
      exact ⟨rfl, h2.symm⟩
  · intro store u bodies genId now res s2 h
    unfold bulkCreateTasks at h
    split at h
    · simp only [Prod.mk.injEq] at h
      refine ⟨⟨[], by rw [← h.2]; simp, by simp⟩, ?_⟩
      intro l hl
      rw [← h.1] at hl
      cases hl
    · obtain ⟨new, hs2, hown, hok⟩ := bulkLoop_spec u genId now bodies 0 [] store res s2 h
      refine ⟨⟨new, hs2, hown⟩, ?_⟩
      intro l hl
      have := hok l hl
      simp at this
      subst this
      exact ⟨hs2, hown⟩
  · intro comments tasks u taskId content newId now c s2 h
    unfold addComment at h
    split at h
    · simp at h
    · simp only [Prod.mk.injEq, Except.ok.injEq] at h
      obtain ⟨h1, h2⟩ := h
      subst h1
      exact ⟨rfl, h2.symm⟩
  · intro files tasks u taskId uploads genId now l s2 h
    unfold uploadFiles at h
    dsimp only at h
    split at h
    · simp at h
    · split at h
      · simp at h
      · simp only [Prod.mk.injEq, Except.ok.injEq] at h
        refine ⟨?_, by rw [← h.1]; exact h.2.symm⟩
        intro f hfm
        rw [← h.1] at hfm
        obtain ⟨nu, hnu, hf⟩ := List.mem_map.mp hfm
        rw [← hf]

/-- C3 instantiated: a body smuggling a foreign createdBy is overridden on
the single create path, and a comment arrives with its author set to the
caller. -/
theorem c3_owner_from_identity_witness :
    (createTask [] uAlice bodySmuggle "666666666666666666666666" 9).fst.map
      Task.createdBy = Except.ok uAlice.id ∧
    (addComment [] [taskSpec] uCarol taskSpec.id "hello"
      "777777777777777777777777" 9).fst.map Comment.author = Except.ok uCarol.id := by
  constructor
  · have h := c3_owner_from_identity.1 [] uAlice bodySmuggle "666666666666666666666666" 9
      taskFromSmuggle [taskFromSmuggle] rfl
    have hfst : (createTask [] uAlice bodySmuggle "666666666666666666666666" 9).fst
        = Except.ok taskFromSmuggle := rfl
    rw [hfst]
    simp only [Except.map]
    rw [h.1]
  · have h := c3_owner_from_identity.2.2.1 [] [taskSpec] uCarol taskSpec.id "hello"
      "777777777777777777777777" 9 commentHello [commentHello] rfl
    have hfst : (addComment [] [taskSpec] uCarol taskSpec.id "hello"
        "777777777777777777777777" 9).fst = Except.ok commentHello := rfl
    rw [hfst]
    simp only [Except.map]
    rw [h.1]
/-- C5: with positive integer page and limit, the page of tasks is the
slice of the sorted matching rows skipping (page-1)*limit and taking limit;
total counts every matching row ignoring the slice; pages is the ceiling of
total over limit; and a page beyond the matching rows yields an empty list,
not an error. -/
theorem c5_pagination :
    ∀ (store : List Task) (p : TaskListParams) (page limit : Int),
      p.page = some page → p.limit = some limit → 1 ≤ page → 1 ≤ limit →
      (getTasks store p).tasks =
        (((store.filter (matchesTaskQuery (buildTaskQuery p))).mergeSort
          (sortComparator p.sortBy p.sortOrder)).drop
          ((page - 1) * limit).toNat).take limit.toNat ∧
      (getTasks store p).total =
        (store.filter (matchesTaskQuery (buildTaskQuery p))).length ∧
      (getTasks store p).pages =
        some (Int.ofNat ((getTasks store p).total ⌈/⌉ limit.toNat)) ∧
      ((store.filter (matchesTaskQuery (buildTaskQuery p))).length ≤
          ((page - 1) * limit).toNat → (getTasks store p).tasks = []) := by
  intro store p page limit hp hl hpage hlim
  have htasks : (getTasks store p).tasks =
      (((store.filter (matchesTaskQuery (buildTaskQuery p))).mergeSort
        (sortComparator p.sortBy p.sortOrder)).drop
        ((page - 1) * limit).toNat).take limit.toNat := by
    show taskFindExec store (getTasksPlan p) = _
    unfold taskFindExec getTasksPlan
    rw [hp, hl]
    simp only [jsSub, jsMul, mul_one]
  refine ⟨htasks, rfl, ?_, ?_⟩
  · show jsCeilPages (countDocs store (matchesTaskQuery (buildTaskQuery p))) p.limit = _
    rw [hl]
    simp only [jsCeilPages]
    rw [if_neg (by omega : ¬ limit ≤ 0)]
    rw [Nat.ceilDiv_eq_add_pred_div]
    rfl
  · intro hbig
    rw [htasks, List.drop_eq_nil_of_le, List.take_nil]
    rw [List.length_mergeSort]
    exact hbig

/-- C5 instantiated on a three-task store: page 2 with limit 1 ascending by
creation returns the slice, total 2, pages 2, and page 4 is empty. -/
theorem c5_pagination_witness :
    (getTasks sampleTasks pPage2).tasks =
      (((sampleTasks.filter (matchesTaskQuery (buildTaskQuery pPage2))).mergeSort
        (sortComparator (some "createdAt") (some "asc"))).drop 1).take 1 ∧
    (getTasks sampleTasks pPage2).total = 2 ∧
    (getTasks sampleTasks pPage2).pages = some 2 ∧
    (getTasks sampleTasks pPage4).tasks = [] := by
  have h2 := c5_pagination sampleTasks pPage2 2 1 rfl rfl (by decide) (by decide)
  have h4 := c5_pagination sampleTasks pPage4 4 1 rfl rfl (by decide) (by decide)
  refine ⟨h2.1, ?_, ?_, h4.2.2.2 (by decide)⟩
  · rw [h2.2.1]
    decide
  · rw [h2.2.2.1, h2.2.1]
    decide
/-- Evaluation of one optionally-present filter field: the condition built
from a truthy parameter holds exactly when every supplied nonempty value
satisfies the field predicate. -/
theorem optFieldIff (o : Option String) (f : String → Bool) :
    (match (if truthy o then o else none) with
      | none => true
      | some s => f s) = true ↔ ∀ s, o = some s → s ≠ "" → f s = true := by
  cases o with
  | none => simp [truthy]
  | some s =>
    by_cases h : s = ""
    · subst h
      have he : ("" : String).isEmpty = true := rfl
      simp [truthy, he]
    · have hne : s.isEmpty = false := by
        rw [← Bool.not_eq_true, String.isEmpty_iff]
        exact h
      simp [truthy, hne, h]

/-- The bool disjunction evaluated for the search term coincides with the
spec-side searchHits. -/
theorem searchHits_iff (s : String) (t : Task) :
    (regexMatchCI s t.title ||
     (match t.description with | none => false | some d => regexMatchCI s d) ||
     t.tags.any (fun tg => regexMatchCI s tg)) = true ↔ searchHits s t := by
  unfold searchHits
  cases t.description with
  | none => simp [List.any_eq_true]
  | some d => simp [List.any_eq_true, or_assoc]

/-- C6: the query document getTasks builds evaluates to exactly the
conjunction of non-deletion, the supplied equality filters and the
case-insensitive title/description/tag disjunction for the search term; and
when one page covers the whole store, the returned page holds exactly the
stored tasks satisfying that conjunction. -/
theorem c6_filter_semantics :
    ∀ (store : List Task) (p : TaskListParams) (limit : Int),
      p.page = some 1 → p.limit = some limit → (store.length : Int) ≤ limit →
      ((∀ t, matchesTaskQuery (buildTaskQuery p) t = true ↔ specTaskFilter p t) ∧
       (∀ t, t ∈ (getTasks store p).tasks ↔ t ∈ store ∧ specTaskFilter p t)) := by
  intro store p limit hp hl hlim
  have hiff : ∀ t, matchesTaskQuery (buildTaskQuery p) t = true ↔ specTaskFilter p t := by
    intro t
    unfold matchesTaskQuery buildTaskQuery specTaskFilter
    simp only [Bool.and_eq_true]
    rw [optFieldIff p.status, optFieldIff p.priority, optFieldIff p.assignedTo,
      optFieldIff p.search]
    simp only [beq_iff_eq, searchHits_iff]
    tauto
  refine ⟨hiff, ?_⟩
  have hlen : store.length ≤ limit.toNat := by omega
  have htasks : (getTasks store p).tasks =
      (store.filter (matchesTaskQuery (buildTaskQuery p))).mergeSort
        (sortComparator p.sortBy p.sortOrder) := by
    show taskFindExec store (getTasksPlan p) = _
    unfold taskFindExec getTasksPlan
    rw [hp, hl]
    simp only [jsSub, jsMul, mul_one]
    rw [show ((1 : Int) - 1) * limit = 0 by ring]
    rw [show (0 : Int).toNat = 0 from rfl, List.drop_zero]
    apply List.take_of_length_le
    rw [List.length_mergeSort]
    exact le_trans (List.length_filter_le _ _) hlen
  intro t
  rw [htasks]
  rw [List.mem_mergeSort, List.mem_filter]
  exact and_congr Iff.rfl (hiff t)

/-- C6 instantiated: with the search term job and status filter todo on the
sample store, membership of the task of alice in the result page coincides
with the spec-side filter. -/
theorem c6_filter_semantics_witness :
    taskSpec ∈ (getTasks sampleTasks pTodoJob).tasks ↔
      taskSpec ∈ sampleTasks ∧ specTaskFilter pTodoJob taskSpec := by
  exact (c6_filter_semantics sampleTasks pTodoJob 10 rfl rfl (by decide)).2 taskSpec
/-- C7: bulk creation is sequential and not atomic: when a later item has
an invalid assignedTo, the request answers 400 yet every item before it
stays committed in the store. -/
theorem c7_bulk_partial_commit :
    ∀ (store : List Task) (u : User) (pre : List TaskBody) (bad : TaskBody)
      (rest : List TaskBody) (genId : Nat → String) (now : Int),
      (∀ b ∈ pre, assignedToInvalid { b with createdBy := some u.id } = false) →
      assignedToInvalid { bad with createdBy := some u.id } = true →
      ∃ committed : List Task,
        bulkCreateTasks store u (pre ++ bad :: rest) genId now =
          (Except.error "400 Invalid assignedTo ID in bulk tasks", store ++ committed) ∧
        committed.length = pre.length ∧ ∀ t ∈ committed, t.createdBy = u.id := by
  intro store u pre bad rest genId now hpre hbad
  have key : ∀ (pre2 : List TaskBody) (n : Nat) (created store1 : List Task),
      (∀ b ∈ pre2, assignedToInvalid { b with createdBy := some u.id } = false) →
      ∃ committed, bulkLoop u genId now (pre2 ++ bad :: rest) n created store1 =
        (Except.error "400 Invalid assignedTo ID in bulk tasks", store1 ++ committed) ∧
        committed.length = pre2.length ∧ ∀ t ∈ committed, t.createdBy = u.id := by
    intro pre2
    induction pre2 with
    | nil =>
      intro n created store1 hp
      refine ⟨[], ?_, rfl, by simp⟩
      rw [List.nil_append]
      unfold bulkLoop
      dsimp only
      rw [if_pos hbad, List.append_nil]
    | cons b pre3 ih =>
      intro n created store1 hp
      have hb := hp b (List.mem_cons_self _ _)
      obtain ⟨committed2, hrun, hlen, hown⟩ := ih (n + 1)
        (created ++ [saveTask { b with createdBy := some u.id } (genId n) now])
        (store1 ++ [saveTask { b with createdBy := some u.id } (genId n) now])
        (fun x hx => hp x (List.mem_cons_of_mem _ hx))
      refine ⟨saveTask { b with createdBy := some u.id } (genId n) now :: committed2,
        ?_, by simp [hlen], ?_⟩
      · rw [List.cons_append]
        unfold bulkLoop
        dsimp only
        rw [hb, if_neg (by simp)]
        rw [hrun]
        simp
      · intro t htm
        rcases List.mem_cons.mp htm with rfl | htm2
        · rfl
        · exact hown t htm2
  obtain ⟨committed, hrun, hlen, hown⟩ := key pre 0 [] store hpre
  refine ⟨committed, ?_, hlen, hown⟩
  unfold bulkCreateTasks
  rw [if_neg (by simp), hrun]

/-- C7 instantiated: one valid item followed by one invalid item yields the
400 response with exactly the first item committed. -/
theorem c7_bulk_partial_commit_witness :
    ∃ committed : List Task,
      bulkCreateTasks [] uAlice [bodyOk, bodyBad] (fun n => toString n) 3 =
        (Except.error "400 Invalid assignedTo ID in bulk tasks", [] ++ committed) ∧
      committed.length = 1 ∧ ∀ t ∈ committed, t.createdBy = uAlice.id := by
  exact c7_bulk_partial_commit [] uAlice [bodyOk] bodyBad [] (fun n => toString n) 3
    (by decide) (by decide)

/-- Lookup in an association list pairing each key with a function of it. -/
theorem lookup_map_pair (g : String → Nat) (k : String) :
    ∀ l : List String, (l.map (fun s => (s, g s))).lookup k =
      if k ∈ l then some (g k) else none := by
  intro l
  induction l with
  | nil => simp
  | cons a rest ih =>
    by_cases h : k = a
    · subst h
      simp [List.lookup]
    · have hb : (k == a) = false := beq_eq_false_iff_ne.mpr h
      simp [List.lookup, hb, ih, h]

/-- A status bucket of the overview equals the direct count of live tasks
with that status. -/
theorem overview_bucket (store : List Task) (k : String) :
    ((groupCountBy (fun t => t.status) (store.filter (fun t => !t.isDeleted))).lookup
      k).getD 0 = countDocs store (fun t => !t.isDeleted && t.status == k) := by
  unfold groupCountBy countDocs
  rw [lookup_map_pair]
  by_cases h : k ∈ ((store.filter (fun t => !t.isDeleted)).map (fun t => t.status)).dedup
  · rw [if_pos h]
    simp only [Option.getD_some]
    rw [List.count_eq_countP, List.countP_map, List.countP_eq_length_filter]
    rw [List.filter_filter]
    congr 1
    apply List.filter_congr
    intro x hx
    exact Bool.and_comm _ _
  · rw [if_neg h]
    simp only [Option.getD_none]
    symm
    rw [List.length_eq_zero]
    rw [List.filter_eq_nil_iff]
    intro t htm hcon
    apply h
    rw [List.mem_dedup]
    simp only [Bool.and_eq_true, Bool.not_eq_true'] at hcon
    have : t ∈ store.filter (fun t => !t.isDeleted) :=
      List.mem_filter.mpr ⟨htm, by simp [hcon.1]⟩
    have h3 : t.status ∈ (store.filter (fun t => !t.isDeleted)).map
        (fun t => t.status) := List.mem_map_of_mem (fun t : Task => t.status) this
    rw [beq_iff_eq.mp hcon.2] at h3
    exact h3

/-- The reduce over the status groups sums to the count of live tasks. -/
theorem overview_total (store : List Task) :
    ((groupCountBy (fun t => t.status) (store.filter (fun t => !t.isDeleted))).map
      (fun s => s.snd)).foldl (· + ·) 0 = countDocs store (fun t => !t.isDeleted) := by
  unfold groupCountBy countDocs
  rw [← List.sum_eq_foldl, List.map_map]
  have hc : ((fun s : String × Nat => s.snd) ∘ fun k =>
      (k, ((store.filter (fun t => !t.isDeleted)).map (fun t => t.status)).count k)) =
      fun k => ((store.filter (fun t => !t.isDeleted)).map (fun t => t.status)).count k :=
    rfl
  rw [hc, List.sum_map_count_dedup_eq_length, List.length_map]

/-- C8: the overview is a flat structure over live tasks only — totalTasks
counts every live task, completedTasks those done, pendingTasks those todo,
inProgressTasks those in progress, and overdueTasks the live tasks with a
due date before now and a status other than done. -/
theorem c8_overview_counts :
    ∀ (store : List Task) (now : Int),
      getOverview store now =
        { totalTasks := countDocs store (fun t => !t.isDeleted)
          completedTasks := countDocs store (fun t => !t.isDeleted && t.status == "done")
          pendingTasks := countDocs store (fun t => !t.isDeleted && t.status == "todo")
          inProgressTasks :=
            countDocs store (fun t => !t.isDeleted && t.status == "in-progress")
          overdueTasks := countDocs store (fun t => !t.isDeleted &&
            (match t.dueDate with | some d => decide (d < now) | none => false) &&
            t.status != "done") } := by
  intro store now
  unfold getOverview
  dsimp only
  simp only [OverviewStats.mk.injEq]
  exact ⟨overview_total store, overview_bucket store "done", overview_bucket store "todo",
    overview_bucket store "in-progress", trivial⟩

/-- The row computed for one identity: counts over live assigned tasks, the
guarded completion rate, and the mean cycle time in days with its empty
guard, stated against direct filters of the store. -/
theorem perfRowFor_spec (store : List Task) (u : User) :
    (perfRowFor store u).userId = u.id ∧
    (perfRowFor store u).username = u.username ∧
    (perfRowFor store u).totalTasks =
      (store.filter (fun t => t.assignedTo == some u.id && !t.isDeleted)).length ∧
    (perfRowFor store u).completedTasks =
      (store.filter (fun t =>
        t.assignedTo == some u.id && t.status == "done" && !t.isDeleted)).length ∧
    ((store.filter (fun t => t.assignedTo == some u.id && !t.isDeleted)).length = 0 →
      (perfRowFor store u).completionRate = 0) ∧
    ((store.filter (fun t => t.assignedTo == some u.id && !t.isDeleted)).length ≠ 0 →
      (perfRowFor store u).completionRate =
        ((store.filter (fun t =>
          t.assignedTo == some u.id && t.status == "done" && !t.isDeleted)).length : Rat)
        * 100 /
        ((store.filter (fun t => t.assignedTo == some u.id && !t.isDeleted)).length : Rat)) ∧
    (store.filter (fun t =>
        t.assignedTo == some u.id && t.status == "done" && !t.isDeleted) = [] →
      (perfRowFor store u).averageCompletionTime = 0) ∧
    (store.filter (fun t =>
        t.assignedTo == some u.id && t.status == "done" && !t.isDeleted) ≠ [] →
      (perfRowFor store u).averageCompletionTime =
        ((store.filter (fun t =>
          t.assignedTo == some u.id && t.status == "done" && !t.isDeleted)).map
          (fun t => ((t.updatedAt - t.createdAt : Int) : Rat))).sum /
        ((store.filter (fun t =>
          t.assignedTo == some u.id && t.status == "done" && !t.isDeleted)).length : Rat)
        / (1000 * 60 * 60 * 24)) := by
  unfold perfRowFor
  dsimp only
  refine ⟨rfl, rfl, rfl, rfl, ?_, ?_, ?_, ?_⟩
  · intro h0
    simp only [countDocs]
    rw [h0]
    norm_num
  · intro h0
    simp only [countDocs]
    rw [if_pos (Nat.pos_of_ne_zero h0)]
    rw [div_mul_eq_mul_div]
  · intro hD
    rw [hD]
    simp
  · intro hD
    rw [if_neg (by simp [hD])]
    rw [← List.sum_eq_foldl, List.map_map, List.length_map]
    rfl

/-- C9: the performance view has one row for every identity; each row
carries the live assigned and completed counts of that identity, a
completion rate that is completed/assigned*100 guarded to 0 when nothing is
assigned, and an average cycle time that is the mean of
updatedAt - createdAt over completed assigned tasks in days, 0 when there
are none. -/
theorem c9_performance_rows :
    ∀ (users : List User) (store : List Task),
      (getPerformance users store).length = users.length ∧
      ∀ u ∈ users, ∃ row ∈ getPerformance users store,
        row.userId = u.id ∧ row.username = u.username ∧
        row.totalTasks =
          (store.filter (fun t => t.assignedTo == some u.id && !t.isDeleted)).length ∧
        row.completedTasks =
          (store.filter (fun t =>
            t.assignedTo == some u.id && t.status == "done" && !t.isDeleted)).length ∧
        ((store.filter (fun t => t.assignedTo == some u.id && !t.isDeleted)).length = 0 →
          row.completionRate = 0) ∧
        ((store.filter (fun t => t.assignedTo == some u.id && !t.isDeleted)).length ≠ 0 →
          row.completionRate =
            ((store.filter (fun t =>
              t.assignedTo == some u.id && t.status == "done" && !t.isDeleted)).length : Rat)
            * 100 /
            ((store.filter (fun t =>
              t.assignedTo == some u.id && !t.isDeleted)).length : Rat)) ∧
        (store.filter (fun t =>
            t.assignedTo == some u.id && t.status == "done" && !t.isDeleted) = [] →
          row.averageCompletionTime = 0) ∧
        (store.filter (fun t =>
            t.assignedTo == some u.id && t.status == "done" && !t.isDeleted) ≠ [] →
          row.averageCompletionTime =
            ((store.filter (fun t =>
              t.assignedTo == some u.id && t.status == "done" && !t.isDeleted)).map
              (fun t => ((t.updatedAt - t.createdAt : Int) : Rat))).sum /
            ((store.filter (fun t =>
              t.assignedTo == some u.id && t.status == "done" && !t.isDeleted)).length : Rat)
            / (1000 * 60 * 60 * 24)) := by
  intro users store
  refine ⟨by simp [getPerformance], ?_⟩
  intro u hu
  exact ⟨perfRowFor store u, List.mem_map_of_mem (perfRowFor store) hu,
    perfRowFor_spec store u⟩

/-- C9 instantiated on the sample store: bob has two assigned live tasks,
one done, rate 50, and a positive mean cycle time; carol has none assigned,
rate 0 and cycle time 0. -/
theorem c9_performance_rows_witness :
    (getPerformance [uBob, uCarol] sampleTasks).length = 2 ∧
    (∃ row ∈ getPerformance [uBob, uCarol] sampleTasks,
      row.userId = uBob.id ∧ row.username = uBob.username ∧ row.totalTasks = 2) ∧
    (∃ row ∈ getPerformance [uBob, uCarol] sampleTasks,
      row.userId = uCarol.id ∧ row.completionRate = 0 ∧
      row.averageCompletionTime = 0) := by
  have h := c9_performance_rows [uBob, uCarol] sampleTasks
  refine ⟨h.1, ?_, ?_⟩
  · obtain ⟨row, hm, h1, h2, h3, _⟩ := h.2 uBob (by simp)
    exact ⟨row, hm, h1, h2, by rw [h3]; decide⟩
  · obtain ⟨row, hm, h1, _, _, _, h5, _, h7, _⟩ := h.2 uCarol (by simp)
    exact ⟨row, hm, h1, h5 (by decide), h7 (by decide)⟩

/-- C10: for an existing live file whose parent task resolves, the bytes
are streamed only to the parent task creator or assignee; any other
authenticated identity — the role and the uploader field are never
consulted — receives Forbidden. -/
theorem c10_download_gate :
    ∀ (files : List FileRec) (tasks : List Task) (disk : List String)
      (u : User) (f : FileRec) (t : Task),
      files.find? (fun g => g.id == f.id && !g.isDeleted) = some f →
      tasks.find? (fun s => s.id == f.task) = some t →
      ((∀ g, downloadFile files tasks disk u f.id = DownloadResult.streamed g →
        u.id = t.createdBy ∨ t.assignedTo = some u.id) ∧
       (u.id ≠ t.createdBy → t.assignedTo ≠ some u.id →
        downloadFile files tasks disk u f.id = DownloadResult.forbidden)) := by
  intro files tasks disk u f t hf ht
  unfold downloadFile findOne
  simp only [hf, ht]
  constructor
  · intro g hg
    by_contra hcon
    push_neg at hcon
    have h1 : (t.createdBy != u.id) = true := bne_iff_ne.mpr (Ne.symm hcon.1)
    have h2 : (match t.assignedTo with | some a => a != u.id | none => true) = true := by
      cases ha : t.assignedTo with
      | none => rfl
      | some a =>
        refine bne_iff_ne.mpr ?_
        intro e
        exact hcon.2 (by rw [ha, e])
    rw [h1, h2] at hg
    simp at hg
  · intro h1 h2
    have hb1 : (t.createdBy != u.id) = true := bne_iff_ne.mpr (Ne.symm h1)
    have hb2 : (match t.assignedTo with | some a => a != u.id | none => true) = true := by
      cases ha : t.assignedTo with
      | none => rfl
      | some a =>
        refine bne_iff_ne.mpr ?_
        intro e
        exact h2 (by rw [ha, e])
    rw [hb1, hb2]
    rfl

/-- C10 instantiated: carol, who uploaded the file and holds the admin
role but is neither creator nor assignee of the parent task, is refused,
as is dave the admin. -/
theorem c10_download_gate_witness :
    downloadFile [fileCarol] [taskSpec] ["/uploads/a.txt"] uCarol fileCarol.id =
      DownloadResult.forbidden ∧
    downloadFile [fileCarol] [taskSpec] ["/uploads/a.txt"] uDave fileCarol.id =
      DownloadResult.forbidden := by
  have hc := c10_download_gate [fileCarol] [taskSpec] ["/uploads/a.txt"] uCarol
    fileCarol taskSpec (by decide) (by decide)
  have hd := c10_download_gate [fileCarol] [taskSpec] ["/uploads/a.txt"] uDave
    fileCarol taskSpec (by decide) (by decide)
  exact ⟨hc.2 (by decide) (by decide), hd.2 (by decide) (by decide)⟩

/-- C2 instantiated: after the concrete soft deletes, the task fetch is
NotFound, the comment can no longer be updated even by its author, and the
file download is NotFound. -/
theorem c2_soft_delete_lifecycle_witness :
    getTaskById sampleTasksDeleted taskSpec.id = Except.error "404 Task not found" ∧
    (updateComment [commentBobDeleted] uBob commentBob.id "x" 9).fst =
      Except.error "404 Comment not found or unauthorized" ∧
    downloadFile [fileCarolDeleted] [taskSpec] ["/uploads/a.txt"] uAlice fileCarol.id =
      DownloadResult.notFound := by
  refine ⟨?_, ?_, ?_⟩
  · exact (c2_soft_delete_lifecycle.1 sampleTasks sampleTasksDeleted uAlice
      taskSpec.id 77 (by decide) rfl).2.2.1
  · exact (c2_soft_delete_lifecycle.2.1 [commentBob] [commentBobDeleted] uBob
      commentBob.id 8 (by decide) rfl).2.2.2 uBob "x" 9
  · exact (c2_soft_delete_lifecycle.2.2 [fileCarol] [fileCarolDeleted] [taskSpec]
      ["/uploads/a.txt"] [] uCarol fileCarol.id 7 (by decide) rfl).2.2.2 uAlice
      ["/uploads/a.txt"]

end TaskMgmt
